import Mathlib

/-!
Verification development for the game-server-management repository,
modelling `src/k8s/game-server-controller/app.js` (the GameServerController
class and its socket handlers) as a shallow embedding.

Modelling conventions:
- JS `Map` objects (`this.servers`, `this.players`) become insertion-ordered
  association lists; `Map.set` replaces in place when the key is present and
  appends otherwise, `Map.delete` filters, `Map.get` is `find?`.
- JS number arithmetic on the integer counters is modelled exactly; the one
  floating-point expression, `totalPlayers / runningServers.length`, is
  modelled over `ℚ` with the `0 / 0 = NaN` case made explicit as `none`
  (every JS comparison against NaN is false, which `optGTb none _ = false`
  captures). The literal `0.8` is the exact rational `4/5`.
- Calls to the Kubernetes API (`createNamespacedDeployment`,
  `deleteNamespacedDeployment`, `listNamespacedPod`) are oracles: a `Bool`
  (or `Except`) argument says whether the awaited call succeeded, and the
  number of calls issued is returned alongside the new state.
- Fresh deployment names (`game-server-${Date.now()}-...`) and `new Date()`
  timestamps are oracle parameters `freshId`, `now`.
- `Array.prototype.sort` is stable (ECMAScript 2019, and the repository
  requires node >= 16), so the comparator `(a, b) => a.players - b.players`
  is modelled by a stable `mergeSort` on `players`.
-/

namespace GameServer

/-- Server status strings actually written by `app.js`: discovery writes
`running` (line 90), `createGameServer` writes `starting` (line 180). -/
inductive Status
  | starting
  | running
deriving DecidableEq

/-- One entry of `this.servers`. Discovered entries (lines 85-92) carry
`ip`/`port`; entries made by `createGameServer` (lines 178-183) do not,
hence the `Option` fields. `players` is the JS `players` counter. -/
structure ServerInfo where
  id : Nat
  ip : Option String := none
  port : Option Nat := none
  players : Nat
  status : Status
  createdAt : Nat
deriving DecidableEq

/-- Controller configuration (constructor, lines 65-68). -/
structure Config where
  maxPlayersPerServer : Nat := 100
  minServers : Nat := 2
  maxServers : Nat := 10
deriving DecidableEq

/-- The mutable state of the controller: `this.servers` and `this.players`,
both JS `Map`s modelled as insertion-ordered lists. A `players` entry maps
a player id to the server id it was assigned. -/
structure CState where
  servers : List ServerInfo
  players : List (Nat × Nat)
deriving DecidableEq

def CState.empty : CState := ⟨[], []⟩

/-- `this.servers.set(s.id, s)`: replace in place if the key is present,
append otherwise (JS Map insertion-order semantics). -/
def setServer (servers : List ServerInfo) (s : ServerInfo) : List ServerInfo :=
  if servers.any (fun t => t.id == s.id) then
    servers.map (fun t => if t.id == s.id then s else t)
  else servers ++ [s]

/-- `this.servers.get(sid)`. -/
def getServer (servers : List ServerInfo) (sid : Nat) : Option ServerInfo :=
  servers.find? (fun t => t.id == sid)

/-- `this.servers.delete(sid)`. -/
def delServer (servers : List ServerInfo) (sid : Nat) : List ServerInfo :=
  servers.filter (fun t => t.id != sid)

/-- `this.players.get(pid)`. -/
def lookupPlayer (ps : List (Nat × Nat)) (pid : Nat) : Option Nat :=
  (ps.find? (fun e => e.1 == pid)).map (fun e => e.2)

/-- `this.players.set(pid, sid)`. -/
def setPlayer (ps : List (Nat × Nat)) (pid sid : Nat) : List (Nat × Nat) :=
  if ps.any (fun e => e.1 == pid) then
    ps.map (fun e => if e.1 == pid then (pid, sid) else e)
  else ps ++ [(pid, sid)]

/-- `this.players.delete(pid)`. -/
def delPlayer (ps : List (Nat × Nat)) (pid : Nat) : List (Nat × Nat) :=
  ps.filter (fun e => e.1 != pid)

/-- `Array.from(this.servers.values()).filter(s => s.status === 'running')`
(lines 206, 227, 260). -/
def runningServers (servers : List ServerInfo) : List ServerInfo :=
  servers.filter (fun s => decide (s.status = Status.running))

/-- `runningServers.reduce((sum, server) => sum + server.players, 0)`
(lines 228, 261). -/
def totalPlayers (running : List ServerInfo) : Nat :=
  running.foldl (fun sum s => sum + s.players) 0

/-- The `serverInfo` object built by `createGameServer` (lines 178-183):
status `starting`, zero players, no ip or port. -/
def newServerInfo (freshId now : Nat) : ServerInfo :=
  { id := freshId, players := 0, status := Status.starting, createdAt := now }

/-- `createGameServer` (lines 102-193): one `createNamespacedDeployment`
call is issued; on success the `starting` entry is inserted into the
registry, on failure the error propagates and the registry is unchanged.
Returns the new registry. The call count is always 1 at every call site,
so only the registry effect is modelled here. -/
def createGameServer (freshId now : Nat) (ok : Bool) (servers : List ServerInfo) :
    List ServerInfo :=
  if ok then setServer servers (newServerInfo freshId now) else servers

/-- `deleteGameServer` (lines 195-203): one `deleteNamespacedDeployment`
call is issued; the registry entry is removed only when the call succeeds
(the catch block swallows the error and leaves the registry unchanged). -/
def deleteGameServer (ok : Bool) (servers : List ServerInfo) (sid : Nat) :
    List ServerInfo :=
  if ok then delServer servers sid else servers

/-- The filter inside `findAvailableServer` (line 220):
`s.status === 'running' && s.players < this.maxPlayersPerServer`. -/
def qualifying (cfg : Config) (servers : List ServerInfo) : List ServerInfo :=
  servers.filter
    (fun s => decide (s.status = Status.running) && decide (s.players < cfg.maxPlayersPerServer))

/-- The sort order of `.sort((a, b) => a.players - b.players)` (line 221). -/
def leP (a b : ServerInfo) : Bool := decide (a.players ≤ b.players)

/-- `findAvailableServer` (lines 218-224): filter the running, non-full
servers, stable-sort ascending by `players`, and return the first element
(`availableServers[0] || null`). -/
def findAvailableServer (cfg : Config) (servers : List ServerInfo) : Option ServerInfo :=
  ((qualifying cfg servers).mergeSort leP).head?

/-- `averageLoad = totalPlayers / runningServers.length` (line 229), exact
over `ℚ`; with no running servers this is JS `0 / 0 = NaN`, modelled as
`none`. -/
def averageLoad (servers : List ServerInfo) : Option ℚ :=
  let running := runningServers servers
  if running.length = 0 then none
  else some ((totalPlayers running : ℚ) / (running.length : ℚ))

/-- Modelled from the spec (section 4.4 step 2, not present in the code):
`averageLoad = totalPlayers / max(1, |runningInstances|)`. Kept separate
from `averageLoad` above, which follows the source. -/
def spec_averageLoad (servers : List ServerInfo) : ℚ :=
  let running := runningServers servers
  (totalPlayers running : ℚ) / ((max 1 running.length : ℕ) : ℚ)

/-- JS `x > y` where `x` may be NaN: every comparison with NaN is false. -/
def optGTb (x : Option ℚ) (y : ℚ) : Bool :=
  match x with
  | none => false
  | some a => decide (y < a)

/-- Observable outcome of one `scaleServers` tick: the new state plus the
provisioner calls issued during the tick. -/
structure TickLog where
  state : CState
  createCalls : Nat
  deleteCalls : List Nat
deriving DecidableEq

/-- `scaleServers` (lines 226-244). `runningServers`, `totalPlayers` and
`averageLoad` are computed once at the top from the current registry; the
scale-up branch (lines 232-235) issues one create when
`averageLoad > maxPlayersPerServer * 0.8 && runningServers.length < maxServers`;
the scale-down branch (lines 238-243) filters the precomputed running list
for idle servers and, when `idleServers.length > 1 && runningServers.length > minServers`,
issues one delete for `idleServers[0]`. A failed create rethrows out of
`scaleServers` (the catch in `createGameServer` at line 191 rethrows and
`scaleServers` has no try/catch), so the tick aborts before the scale-down
block with the registry unchanged: the first branch below models that
abort, with the create call already issued. -/
def scaleServers (cfg : Config) (freshId now : Nat) (okCreate okDelete : Bool)
    (st : CState) : TickLog :=
  let running := runningServers st.servers
  let scaleUp := optGTb (averageLoad st.servers) ((cfg.maxPlayersPerServer : ℚ) * (4/5))
                  && decide (running.length < cfg.maxServers)
  if scaleUp && !okCreate then
    { state := st, createCalls := 1, deleteCalls := [] }
  else
    let servers1 := if scaleUp then createGameServer freshId now okCreate st.servers
                    else st.servers
    let createCalls := if scaleUp then 1 else 0
    let idleServers := running.filter (fun s => s.players == 0)
    if decide (1 < idleServers.length) && decide (cfg.minServers < running.length) then
      match idleServers.head? with
      | some s =>
          { state := { st with servers := deleteGameServer okDelete servers1 s.id },
            createCalls := createCalls, deleteCalls := [s.id] }
      | none =>
          { state := { st with servers := servers1 },
            createCalls := createCalls, deleteCalls := [] }
    else
      { state := { st with servers := servers1 },
        createCalls := createCalls, deleteCalls := [] }

/-- What the `request-server` handler emits back on the socket:
`assigned` is `server-assigned` with `serverId`/`serverIP`/`serverPort`
(lines 316-320); `createdNew` is `server-assigned` carrying only the new
server id and a retry message (lines 329-332); `failed` is the `error`
event (line 334). -/
inductive PlacementResult
  | assigned (serverId : Nat) (ip : Option String) (port : Option Nat)
  | createdNew (serverId : Nat)
  | failed
deriving DecidableEq

/-- Outcome of one `request-server` event: new state, emitted result, and
the number of provisioner create calls issued. -/
structure PlacementLog where
  state : CState
  result : PlacementResult
  createCalls : Nat
deriving DecidableEq

/-- The `request-server` handler (lines 311-337). If `findAvailableServer`
returns a server it emits the assignment, increments that entry and binds
the player (with no check whether `pid` already has a session); otherwise
it calls `createGameServer` itself and emits the new id with a retry
message, or the `error` event if the create fails; in that branch no
session is bound and no counter changes. -/
def requestPlacement (cfg : Config) (freshId now : Nat) (ok : Bool)
    (st : CState) (pid : Nat) : PlacementLog :=
  match findAvailableServer cfg st.servers with
  | some srv =>
      { state :=
          { servers := st.servers.map
              (fun t => if t.id == srv.id then { t with players := t.players + 1 } else t),
            players := setPlayer st.players pid srv.id },
        result := PlacementResult.assigned srv.id srv.ip srv.port,
        createCalls := 0 }
  | none =>
      if ok then
        { state := { st with servers := setServer st.servers (newServerInfo freshId now) },
          result := PlacementResult.createdNew freshId,
          createCalls := 1 }
      else
        { state := st, result := PlacementResult.failed, createCalls := 1 }

/-- The `player-disconnect` handler (lines 339-350): look up the session;
if present, decrement the bound server entry only when it exists and its
counter is positive, then delete the session; if absent, do nothing. -/
def releasePlacement (st : CState) (pid : Nat) : CState :=
  match lookupPlayer st.players pid with
  | some sid =>
      let servers :=
        match getServer st.servers sid with
        | some srv =>
            if 0 < srv.players then
              st.servers.map
                (fun t => if t.id == sid then { t with players := t.players - 1 } else t)
            else st.servers
        | none => st.servers
      { servers := servers, players := delPlayer st.players pid }
  | none => st

/-- One pod returned by `listNamespacedPod` as used by discovery. -/
structure PodInfo where
  name : Nat
  podIP : Option String
  phase : String
  creationTimestamp : Nat
deriving DecidableEq

/-- The `serverInfo` object built for a discovered pod (lines 85-92):
status `running`, port 3000, zero players. -/
def discoveredInfo (p : PodInfo) : ServerInfo :=
  { id := p.name, ip := p.podIP, port := some 3000, players := 0,
    status := Status.running, createdAt := p.creationTimestamp }

/-- `discoverExistingServers` (lines 79-100): on a successful list call,
insert an entry for every pod in phase `Running`; a thrown error is caught
and logged, leaving the registry unchanged. -/
def discoverExistingServers (res : Except Unit (List PodInfo))
    (servers : List ServerInfo) : List ServerInfo :=
  match res with
  | Except.error _ => servers
  | Except.ok pods =>
      pods.foldl
        (fun acc p => if p.phase == "Running" then setServer acc (discoveredInfo p) else acc)
        servers

/-- The `for` loop of `ensureMinimumServers` (lines 212-214): `n`
successive `createGameServer` calls, each succeeding (startup only
proceeds to ready when they do), with distinct fresh names. -/
def createMany (fresh : Nat → Nat) (now : Nat) :
    Nat → List ServerInfo → List ServerInfo
  | 0, servers => servers
  | n + 1, servers => createMany fresh now n (createGameServer (fresh n) now true servers)

/-- `ensureMinimumServers` (lines 205-216): count running servers; if
below `minServers`, create exactly the difference (the count is fixed
before the loop). Returns the registry and the number of create calls. -/
def ensureMinimumServers (cfg : Config) (fresh : Nat → Nat) (now : Nat)
    (servers : List ServerInfo) : List ServerInfo × Nat :=
  let runningCount := (runningServers servers).length
  if runningCount < cfg.minServers then
    let serversToCreate := cfg.minServers - runningCount
    (createMany fresh now serversToCreate servers, serversToCreate)
  else (servers, 0)

/-- `initialize` (lines 71-77) up to the ready point: discovery from an
empty registry, then the minimum top-up. Returns the state and the number
of create calls issued before the controller reports ready. -/
def startup (cfg : Config) (fresh : Nat → Nat) (now : Nat)
    (res : Except Unit (List PodInfo)) : CState × Nat :=
  let servers := discoverExistingServers res []
  let r := ensureMinimumServers cfg fresh now servers
  (⟨r.1, []⟩, r.2)

/-- One externally triggered controller operation: a `request-server`
event, a `player-disconnect` event, a manual `POST /servers`, a manual
`DELETE /servers/:id`, one scaling tick, or a discovery pass (the only
writer of status `running`). -/
inductive Op
  | place (pid freshId now : Nat) (ok : Bool)
  | release (pid : Nat)
  | create (freshId now : Nat) (ok : Bool)
  | remove (sid : Nat) (ok : Bool)
  | tick (freshId now : Nat) (okCreate okDelete : Bool)
  | discover (res : Except Unit (List PodInfo))

def Op.isDiscover : Op → Bool
  | Op.discover _ => true
  | _ => false

/-- State transition of one operation. -/
def step (cfg : Config) (st : CState) : Op → CState
  | Op.place pid f n ok => (requestPlacement cfg f n ok st pid).state
  | Op.release pid => releasePlacement st pid
  | Op.create f n ok => { st with servers := createGameServer f n ok st.servers }
  | Op.remove sid ok => { st with servers := deleteGameServer ok st.servers sid }
  | Op.tick f n okC okD => (scaleServers cfg f n okC okD st).state
  | Op.discover res => { st with servers := discoverExistingServers res st.servers }

/-- Run a sequence of operations from the empty initial state. -/
def run (cfg : Config) (ops : List Op) : CState :=
  ops.foldl (step cfg) CState.empty

/-- One step of the first-minimum fold used to characterise
`findAvailableServer`: keep the earlier element unless a strictly smaller
`players` value appears. -/
def pickMin (acc : Option ServerInfo) (s : ServerInfo) : Option ServerInfo :=
  match acc with
  | none => some s
  | some b => if s.players < b.players then some s else some b

/-- First element of the list attaining the minimal `players` value. -/
def firstMinBy (l : List ServerInfo) : Option ServerInfo :=
  l.foldl pickMin none

/-- Every registry entry with id `i` has status `starting`. -/
def allStarting (servers : List ServerInfo) (i : Nat) : Prop :=
  ∀ t ∈ servers, t.id = i → t.status = Status.starting

/-- Combine an already-chosen candidate `b` with the choice for the rest of
the list: the later candidate wins only with a strictly smaller `players`. -/
def keepEarlier (b : ServerInfo) (x : Option ServerInfo) : Option ServerInfo :=
  match x with
  | none => some b
  | some m => if m.players < b.players then some m else some b

/-- The registry invariant: ids are unique (a JS `Map` cannot hold two
entries under one key) and no entry holds more players than the configured
capacity. -/
def RegInvariant (cfg : Config) (servers : List ServerInfo) : Prop :=
  (servers.map (fun s => s.id)).Nodup ∧
  ∀ s ∈ servers, s.players ≤ cfg.maxPlayersPerServer

/-! ### Helper lemmas: characterising the stable sort in `findAvailableServer` -/

theorem keepEarlier_none (b : ServerInfo) : keepEarlier b none = some b := rfl

theorem keepEarlier_some (b m : ServerInfo) :
    keepEarlier b (some m) = if m.players < b.players then some m else some b := rfl

theorem leP_trans : ∀ a b c, leP a b → leP b c → leP a c := by
  intro a b c hab hbc
  simp only [leP, decide_eq_true_eq] at *
  omega

theorem leP_total : ∀ a b, leP a b || leP b a := by
  intro a b
  simp only [leP, Bool.or_eq_true, decide_eq_true_eq]
  omega

theorem foldl_pickMin_some (l : List ServerInfo) :
    ∀ b, l.foldl pickMin (some b) = keepEarlier b (firstMinBy l) := by
  induction l with
  | nil => intro b; rfl
  | cons x l ih =>
    intro b
    have hfm : firstMinBy (x :: l) = l.foldl pickMin (some x) := rfl
    rw [hfm, ih x]
    show l.foldl pickMin (pickMin (some b) x) = _
    simp only [pickMin]
    by_cases hxb : x.players < b.players
    · rw [if_pos hxb, ih x]
      cases hm : firstMinBy l with
      | none => rw [keepEarlier_none, keepEarlier_some, if_pos hxb]
      | some m =>
        rw [keepEarlier_some]
        by_cases hmx : m.players < x.players
        · rw [if_pos hmx, keepEarlier_some, if_pos (by omega)]
        · rw [if_neg hmx, keepEarlier_some, if_pos hxb]
    · rw [if_neg hxb, ih b]
      cases hm : firstMinBy l with
      | none => rw [keepEarlier_none, keepEarlier_none, keepEarlier_some, if_neg hxb]
      | some m =>
        rw [keepEarlier_some, keepEarlier_some]
        by_cases hmx : m.players < x.players
        · rw [if_pos hmx, keepEarlier_some]
        · rw [if_neg hmx, keepEarlier_some, if_neg hxb, if_neg (by omega)]

theorem firstMinBy_cons (a : ServerInfo) (l : List ServerInfo) :
    firstMinBy (a :: l) = keepEarlier a (firstMinBy l) := by
  show l.foldl pickMin (some a) = _
  exact foldl_pickMin_some l a

theorem firstMinBy_eq_none (l : List ServerInfo) :
    firstMinBy l = none ↔ l = [] := by
  cases l with
  | nil => simp [firstMinBy]
  | cons a l =>
    rw [firstMinBy_cons]
    cases firstMinBy l with
    | none => simp [keepEarlier_none]
    | some m =>
      rw [keepEarlier_some]
      constructor
      · intro h; split at h <;> simp_all
      · intro h; simp at h

theorem head?_mergeSort_eq_firstMinBy : ∀ (l : List ServerInfo),
    (l.mergeSort leP).head? = firstMinBy l := by
  intro l
  induction l with
  | nil => rw [List.mergeSort_nil]; rfl
  | cons a l ih =>
    obtain ⟨l₁, l₂, h1, h2, h3⟩ := List.mergeSort_cons leP_trans leP_total a l
    rw [h1, firstMinBy_cons]
    cases l₁ with
    | nil =>
      simp only [List.nil_append, List.head?_cons]
      rw [h2] at ih
      simp only [List.nil_append] at ih
      rw [← ih]
      cases hl2 : l₂ with
      | nil => rw [List.head?_nil, keepEarlier_none]
      | cons c w =>
        simp only [List.head?_cons]
        rw [keepEarlier_some]
        have hs := List.sorted_mergeSort leP_trans leP_total (a :: l)
        rw [h1, hl2] at hs
        simp only [List.nil_append] at hs
        have hac : leP a c := (List.pairwise_cons.mp hs).1 c (by simp)
        have hn : ¬ c.players < a.players := by
          simp only [leP, decide_eq_true_eq] at hac; omega
        rw [if_neg hn]
    | cons c w =>
      simp only [List.cons_append, List.head?_cons]
      rw [h2] at ih
      simp only [List.cons_append, List.head?_cons] at ih
      rw [← ih]
      have hca : c.players < a.players := by
        have := h3 c (by simp)
        simp only [leP, Bool.not_eq_true', decide_eq_false_iff_not] at this
        omega
      rw [keepEarlier_some, if_pos hca]

theorem firstMinBy_decomp : ∀ (l : List ServerInfo) (m : ServerInfo),
    firstMinBy l = some m →
    ∃ l₁ l₂, l = l₁ ++ m :: l₂ ∧ (∀ x ∈ l₁, m.players < x.players) ∧
      (∀ x ∈ l₂, m.players ≤ x.players) := by
  intro l
  induction l with
  | nil => intro m h; exact absurd h (by simp [firstMinBy])
  | cons a l ih =>
    intro m h
    rw [firstMinBy_cons] at h
    cases hm : firstMinBy l with
    | none =>
      rw [hm, keepEarlier_none] at h
      simp only [Option.some.injEq] at h
      subst h
      have hl : l = [] := (firstMinBy_eq_none l).mp hm
      subst hl
      exact ⟨[], [], rfl, by simp, by simp⟩
    | some q =>
      rw [hm, keepEarlier_some] at h
      obtain ⟨l₁, l₂, hdec, hlt, hle⟩ := ih q hm
      by_cases hqa : q.players < a.players
      · rw [if_pos hqa] at h
        simp only [Option.some.injEq] at h
        subst h
        refine ⟨a :: l₁, l₂, by rw [hdec, List.cons_append], ?_, hle⟩
        intro x hx
        rcases List.mem_cons.mp hx with h | h
        · subst h; exact hqa
        · exact hlt x h
      · rw [if_neg hqa] at h
        simp only [Option.some.injEq] at h
        subst h
        refine ⟨[], l, rfl, by simp, ?_⟩
        intro x hx
        rw [hdec] at hx
        rcases List.mem_append.mp hx with h | h
        · have := hlt x h; omega
        · rcases List.mem_cons.mp h with h | h
          · subst h; omega
          · have := hle x h; omega

/-- `findAvailableServer` computes the first qualifying server of minimal
`players`: head of a stable sort equals the first minimum. -/
theorem findAvailableServer_eq_firstMin (cfg : Config) (servers : List ServerInfo) :
    findAvailableServer cfg servers = firstMinBy (qualifying cfg servers) :=
  head?_mergeSort_eq_firstMinBy (qualifying cfg servers)

theorem mem_qualifying (cfg : Config) (servers : List ServerInfo) (s : ServerInfo) :
    s ∈ qualifying cfg servers ↔
      s ∈ servers ∧ s.status = Status.running ∧ s.players < cfg.maxPlayersPerServer := by
  simp [qualifying, List.mem_filter]

theorem findAvailableServer_mem (cfg : Config) (servers : List ServerInfo)
    (srv : ServerInfo) (h : findAvailableServer cfg servers = some srv) :
    srv ∈ servers ∧ srv.status = Status.running ∧ srv.players < cfg.maxPlayersPerServer := by
  rw [findAvailableServer_eq_firstMin] at h
  obtain ⟨l₁, l₂, hdec, -, -⟩ := firstMinBy_decomp _ _ h
  have : srv ∈ qualifying cfg servers := by rw [hdec]; exact List.mem_append_right _ (by simp)
  exact (mem_qualifying cfg servers srv).mp this

/-- C2: the claim asserts that ties on lowest `playerCount` are broken by
lowest `createdAt`. The code sorts only by `players` with a stable sort,
so ties are broken by registry insertion order. In this registry the two
running idle servers tie on `players`, the second-inserted one is older
(`createdAt` 5 against 10), yet selection returns the first-inserted one. -/
theorem selectInstance_createdAt_tiebreak_counterexample :
    findAvailableServer {}
        [{ id := 1, players := 0, status := Status.running, createdAt := 10 },
         { id := 2, players := 0, status := Status.running, createdAt := 5 }] =
      some { id := 1, players := 0, status := Status.running, createdAt := 10 } ∧
    ({ id := 2, players := 0, status := Status.running, createdAt := 5 } : ServerInfo) ∈
      qualifying {}
        [{ id := 1, players := 0, status := Status.running, createdAt := 10 },
         { id := 2, players := 0, status := Status.running, createdAt := 5 }] ∧
    (5 : Nat) < 10 := by
  refine ⟨?_, by decide, by decide⟩
  rw [findAvailableServer_eq_firstMin]
  decide

/-- C2 (amended): for every registry snapshot with at least one qualifying
instance, `findAvailableServer` returns a running instance with
`playerCount < capacity` whose `playerCount` is minimal among qualifying
instances; when several tie on the lowest `playerCount` it returns the one
earliest in registry insertion order (every qualifying instance listed
before it has strictly more players), not the one with lowest `createdAt`. -/
theorem selectInstance_lowest_players_insertion_order :
    ∀ (cfg : Config) (servers : List ServerInfo),
      (qualifying cfg servers ≠ [] → (findAvailableServer cfg servers).isSome) ∧
      ∀ srv, findAvailableServer cfg servers = some srv →
        srv ∈ servers ∧
        srv.status = Status.running ∧
        srv.players < cfg.maxPlayersPerServer ∧
        (∀ t ∈ qualifying cfg servers, srv.players ≤ t.players) ∧
        ∃ l₁ l₂, qualifying cfg servers = l₁ ++ srv :: l₂ ∧
          ∀ t ∈ l₁, srv.players < t.players := by
  intro cfg servers
  constructor
  · intro hne
    rw [findAvailableServer_eq_firstMin]
    cases hfm : firstMinBy (qualifying cfg servers) with
    | none => exact absurd ((firstMinBy_eq_none _).mp hfm) hne
    | some m => rfl
  · intro srv h
    obtain ⟨hmem, hrun, hlt⟩ := findAvailableServer_mem cfg servers srv h
    rw [findAvailableServer_eq_firstMin] at h
    obtain ⟨l₁, l₂, hdec, hl₁, hl₂⟩ := firstMinBy_decomp _ _ h
    refine ⟨hmem, hrun, hlt, ?_, l₁, l₂, hdec, hl₁⟩
    intro t ht
    rw [hdec] at ht
    rcases List.mem_append.mp ht with h' | h'
    · exact Nat.le_of_lt (hl₁ t h')
    · rcases List.mem_cons.mp h' with h' | h'
      · subst h'; exact Nat.le_refl _
      · exact hl₂ t h'

/-- C2 witness: a singleton registry with one running, non-full server has
a qualifying instance, so selection succeeds. -/
theorem selectInstance_lowest_players_insertion_order_witness :
    (findAvailableServer {}
      [{ id := 1, players := 3, status := Status.running, createdAt := 0 }]).isSome :=
  (selectInstance_lowest_players_insertion_order {}
    [{ id := 1, players := 3, status := Status.running, createdAt := 0 }]).1 (by decide)

/-! ### Helper lemmas: one scaling tick -/

theorem scaleServers_createCalls (cfg : Config) (freshId now : Nat)
    (okCreate okDelete : Bool) (st : CState) :
    (scaleServers cfg freshId now okCreate okDelete st).createCalls =
      if optGTb (averageLoad st.servers) ((cfg.maxPlayersPerServer : ℚ) * (4/5))
          && decide ((runningServers st.servers).length < cfg.maxServers) then 1 else 0 := by
  simp only [scaleServers]
  split
  · rename_i h
    rw [if_pos (Bool.and_eq_true_iff.mp h).1]
  · split
    · split <;> rfl
    · rfl

theorem scaleServers_deleteCalls (cfg : Config) (freshId now : Nat)
    (okCreate okDelete : Bool) (st : CState) :
    (scaleServers cfg freshId now okCreate okDelete st).deleteCalls =
      if (optGTb (averageLoad st.servers) ((cfg.maxPlayersPerServer : ℚ) * (4/5))
          && decide ((runningServers st.servers).length < cfg.maxServers)) && !okCreate then
        []
      else if decide (1 < ((runningServers st.servers).filter (fun s => s.players == 0)).length)
          && decide (cfg.minServers < (runningServers st.servers).length) then
        (((runningServers st.servers).filter (fun s => s.players == 0)).head?.map
          (fun s => s.id)).toList
      else [] := by
  simp only [scaleServers]
  split
  · rfl
  · split
    · cases hh : ((runningServers st.servers).filter (fun s => s.players == 0)).head? <;> rfl
    · rfl

/-- The scale-up comparison of the code (NaN-aware `>` against the exact
`averageLoad`) agrees with the spec formula `totalPlayers / max(1, n)`. -/
theorem optGTb_averageLoad_iff (cfg : Config) (st : CState) :
    (optGTb (averageLoad st.servers) ((cfg.maxPlayersPerServer : ℚ) * (4/5)) = true) ↔
      ((cfg.maxPlayersPerServer : ℚ) * (4/5) < spec_averageLoad st.servers) := by
  by_cases h : (runningServers st.servers).length = 0
  · have hnil : runningServers st.servers = [] := List.length_eq_zero.mp h
    simp only [averageLoad, spec_averageLoad, optGTb, hnil]
    simp only [List.length_nil, if_pos rfl]
    have htot : totalPlayers ([] : List ServerInfo) = 0 := rfl
    rw [htot]
    have hge : (0:ℚ) ≤ (cfg.maxPlayersPerServer : ℚ) * (4/5) := by positivity
    constructor
    · intro hcon; cases hcon
    · intro hcon; norm_num at hcon; linarith
  · have h1 : 0 < (runningServers st.servers).length := Nat.pos_of_ne_zero h
    simp only [averageLoad, spec_averageLoad, optGTb, if_neg h]
    have hmax : max 1 (runningServers st.servers).length = (runningServers st.servers).length :=
      Nat.max_eq_right h1
    rw [hmax]
    simp only [decide_eq_true_eq]

/-- C1: one tick issues a create call if and only if the average load
exceeds 0.8 of capacity and the running count is below `maxServers`, and
it issues at most (hence exactly) one create; with 2 running instances of
capacity 100 and 85 total players no create is issued, and with 170 total
players exactly one create is issued. -/
theorem scaleUp_rule :
    (∀ (cfg : Config) (freshId now : Nat) (okCreate okDelete : Bool) (st : CState),
      ((scaleServers cfg freshId now okCreate okDelete st).createCalls = 1 ↔
        ((cfg.maxPlayersPerServer : ℚ) * (4/5) < spec_averageLoad st.servers ∧
          (runningServers st.servers).length < cfg.maxServers)) ∧
      (scaleServers cfg freshId now okCreate okDelete st).createCalls ≤ 1) ∧
    (scaleServers {} 9 0 true true
      ⟨[{ id := 1, players := 42, status := Status.running, createdAt := 0 },
        { id := 2, players := 43, status := Status.running, createdAt := 0 }], []⟩).createCalls
      = 0 ∧
    (scaleServers {} 9 0 true true
      ⟨[{ id := 1, players := 85, status := Status.running, createdAt := 0 },
        { id := 2, players := 85, status := Status.running, createdAt := 0 }], []⟩).createCalls
      = 1 := by
  have main : ∀ (cfg : Config) (freshId now : Nat) (okCreate okDelete : Bool) (st : CState),
      ((scaleServers cfg freshId now okCreate okDelete st).createCalls = 1 ↔
        ((cfg.maxPlayersPerServer : ℚ) * (4/5) < spec_averageLoad st.servers ∧
          (runningServers st.servers).length < cfg.maxServers)) ∧
      (scaleServers cfg freshId now okCreate okDelete st).createCalls ≤ 1 := by
    intro cfg freshId now okCreate okDelete st
    rw [scaleServers_createCalls]
    constructor
    · constructor
      · intro h1
        by_cases hb : (optGTb (averageLoad st.servers) ((cfg.maxPlayersPerServer : ℚ) * (4/5))
            && decide ((runningServers st.servers).length < cfg.maxServers)) = true
        · rcases Bool.and_eq_true_iff.mp hb with ⟨hgt, hlt⟩
          exact ⟨(optGTb_averageLoad_iff cfg st).mp hgt, of_decide_eq_true hlt⟩
        · rw [if_neg hb] at h1; cases h1
      · intro ⟨hgt, hlt⟩
        have hb : (optGTb (averageLoad st.servers) ((cfg.maxPlayersPerServer : ℚ) * (4/5))
            && decide ((runningServers st.servers).length < cfg.maxServers)) = true :=
          Bool.and_eq_true_iff.mpr
            ⟨(optGTb_averageLoad_iff cfg st).mpr hgt, decide_eq_true hlt⟩
        rw [if_pos hb]
    · split <;> omega
  refine ⟨main, ?_, ?_⟩
  · have h := main {} 9 0 true true
      ⟨[{ id := 1, players := 42, status := Status.running, createdAt := 0 },
        { id := 2, players := 43, status := Status.running, createdAt := 0 }], []⟩
    have hs : spec_averageLoad
        [{ id := 1, players := 42, status := Status.running, createdAt := 0 },
         { id := 2, players := 43, status := Status.running, createdAt := 0 }] = 85/2 := by
      have hr : runningServers
          [{ id := 1, players := 42, status := Status.running, createdAt := 0 },
           { id := 2, players := 43, status := Status.running, createdAt := 0 }] =
          [{ id := 1, players := 42, status := Status.running, createdAt := 0 },
           { id := 2, players := 43, status := Status.running, createdAt := 0 }] := by decide
      have ht : totalPlayers
          [{ id := 1, players := 42, status := Status.running, createdAt := 0 },
           { id := 2, players := 43, status := Status.running, createdAt := 0 }] = 85 := by decide
      simp only [spec_averageLoad, hr, ht]
      norm_num
    have hno : ¬ ((({} : Config).maxPlayersPerServer : ℚ) * (4/5) < spec_averageLoad
        [{ id := 1, players := 42, status := Status.running, createdAt := 0 },
         { id := 2, players := 43, status := Status.running, createdAt := 0 }] ∧
        (runningServers
          [{ id := 1, players := 42, status := Status.running, createdAt := 0 },
           { id := 2, players := 43, status := Status.running, createdAt := 0 }]).length <
          ({} : Config).maxServers) := by
      rintro ⟨hcon, -⟩
      rw [hs] at hcon
      have hcap : (({} : Config).maxPlayersPerServer : ℚ) = 100 := by norm_num
      rw [hcap] at hcon
      norm_num at hcon
    have hne : ¬ ((scaleServers {} 9 0 true true
        ⟨[{ id := 1, players := 42, status := Status.running, createdAt := 0 },
          { id := 2, players := 43, status := Status.running, createdAt := 0 }],
          []⟩).createCalls = 1) := fun hc => hno (h.1.mp hc)
    have h2 := h.2
    omega
  · have h := main {} 9 0 true true
      ⟨[{ id := 1, players := 85, status := Status.running, createdAt := 0 },
        { id := 2, players := 85, status := Status.running, createdAt := 0 }], []⟩
    apply h.1.mpr
    constructor
    · have hr : runningServers
          [{ id := 1, players := 85, status := Status.running, createdAt := 0 },
           { id := 2, players := 85, status := Status.running, createdAt := 0 }] =
          [{ id := 1, players := 85, status := Status.running, createdAt := 0 },
           { id := 2, players := 85, status := Status.running, createdAt := 0 }] := by decide
      have ht : totalPlayers
          [{ id := 1, players := 85, status := Status.running, createdAt := 0 },
           { id := 2, players := 85, status := Status.running, createdAt := 0 }] = 170 := by
        decide
      simp only [spec_averageLoad, hr, ht]
      norm_num
    · decide

/-- C6 counterexample: a registry where the scale-down condition holds
(2 idle of 3 running, `minServers = 1`) while the scale-up rule also fires
(average 10 > 0.8 * 10, 3 < `maxServers = 5`) and the create call fails:
`createGameServer` rethrows, `scaleServers` has no try/catch, so the tick
aborts before the scale-down block and no delete is issued, refuting the
claim that a delete is issued whenever idle > 1 and running > min. -/
theorem scaleDown_abort_counterexample :
    (1 < ((runningServers
        [{ id := 1, players := 0, status := Status.running, createdAt := 0 },
         { id := 2, players := 0, status := Status.running, createdAt := 0 },
         { id := 3, players := 30, status := Status.running, createdAt := 0 }]).filter
        (fun s => s.players == 0)).length ∧
      ({ maxPlayersPerServer := 10, minServers := 1, maxServers := 5 } : Config).minServers <
        (runningServers
          [{ id := 1, players := 0, status := Status.running, createdAt := 0 },
           { id := 2, players := 0, status := Status.running, createdAt := 0 },
           { id := 3, players := 30, status := Status.running, createdAt := 0 }]).length) ∧
    (optGTb (averageLoad
        [{ id := 1, players := 0, status := Status.running, createdAt := 0 },
         { id := 2, players := 0, status := Status.running, createdAt := 0 },
         { id := 3, players := 30, status := Status.running, createdAt := 0 }])
        ((({ maxPlayersPerServer := 10, minServers := 1, maxServers := 5 } :
            Config).maxPlayersPerServer : ℚ) * (4/5))
      && decide ((runningServers
        [{ id := 1, players := 0, status := Status.running, createdAt := 0 },
         { id := 2, players := 0, status := Status.running, createdAt := 0 },
         { id := 3, players := 30, status := Status.running, createdAt := 0 }]).length <
        ({ maxPlayersPerServer := 10, minServers := 1, maxServers := 5 } :
          Config).maxServers)) = true ∧
    (scaleServers { maxPlayersPerServer := 10, minServers := 1, maxServers := 5 } 9 0 false true
      ⟨[{ id := 1, players := 0, status := Status.running, createdAt := 0 },
        { id := 2, players := 0, status := Status.running, createdAt := 0 },
        { id := 3, players := 30, status := Status.running, createdAt := 0 }], []⟩).deleteCalls
      = [] := by
  have hr : runningServers
      [{ id := 1, players := 0, status := Status.running, createdAt := 0 },
       { id := 2, players := 0, status := Status.running, createdAt := 0 },
       { id := 3, players := 30, status := Status.running, createdAt := 0 }] =
      [{ id := 1, players := 0, status := Status.running, createdAt := 0 },
       { id := 2, players := 0, status := Status.running, createdAt := 0 },
       { id := 3, players := 30, status := Status.running, createdAt := 0 }] := by decide
  have ht : totalPlayers
      [{ id := 1, players := 0, status := Status.running, createdAt := 0 },
       { id := 2, players := 0, status := Status.running, createdAt := 0 },
       { id := 3, players := 30, status := Status.running, createdAt := 0 }] = 30 := by decide
  have havg : averageLoad
      [{ id := 1, players := 0, status := Status.running, createdAt := 0 },
       { id := 2, players := 0, status := Status.running, createdAt := 0 },
       { id := 3, players := 30, status := Status.running, createdAt := 0 }] =
      some ((30 : ℚ) / 3) := by
    simp only [averageLoad, hr, ht]
    rw [if_neg (by decide)]
    norm_num
  have hcond : (optGTb (averageLoad
      [{ id := 1, players := 0, status := Status.running, createdAt := 0 },
       { id := 2, players := 0, status := Status.running, createdAt := 0 },
       { id := 3, players := 30, status := Status.running, createdAt := 0 }])
      ((({ maxPlayersPerServer := 10, minServers := 1, maxServers := 5 } :
          Config).maxPlayersPerServer : ℚ) * (4/5))
    && decide ((runningServers
      [{ id := 1, players := 0, status := Status.running, createdAt := 0 },
       { id := 2, players := 0, status := Status.running, createdAt := 0 },
       { id := 3, players := 30, status := Status.running, createdAt := 0 }]).length <
      ({ maxPlayersPerServer := 10, minServers := 1, maxServers := 5 } :
        Config).maxServers)) = true := by
    refine Bool.and_eq_true_iff.mpr ⟨?_, by decide⟩
    rw [havg]
    simp only [optGTb]
    apply decide_eq_true
    show ((10 : ℕ) : ℚ) * (4/5) < (30 : ℚ) / 3
    norm_num
  refine ⟨by decide, hcond, ?_⟩
  rw [scaleServers_deleteCalls]
  rw [if_pos (by rw [Bool.not_false, Bool.and_true]; exact hcond)]

/-- C6 (amended): one tick issues a delete for exactly one instance, the
first idle one in insertion order, when more than one running instance is
idle, the running count exceeds `minServers`, and the tick was not aborted
by a failed scale-up create (a failed create rethrows and ends the tick
before the scale-down block); no delete is issued otherwise, and in every
case at most one delete is issued per tick. -/
theorem scaleDown_rule :
    ∀ (cfg : Config) (freshId now : Nat) (okCreate okDelete : Bool) (st : CState),
      ((1 < ((runningServers st.servers).filter (fun s => s.players == 0)).length ∧
          cfg.minServers < (runningServers st.servers).length) →
        ¬ ((optGTb (averageLoad st.servers) ((cfg.maxPlayersPerServer : ℚ) * (4/5))
            && decide ((runningServers st.servers).length < cfg.maxServers)) = true ∧
           okCreate = false) →
        ∃ s rest,
          (runningServers st.servers).filter (fun s => s.players == 0) = s :: rest ∧
          (scaleServers cfg freshId now okCreate okDelete st).deleteCalls = [s.id]) ∧
      (¬ (1 < ((runningServers st.servers).filter (fun s => s.players == 0)).length ∧
          cfg.minServers < (runningServers st.servers).length) →
        (scaleServers cfg freshId now okCreate okDelete st).deleteCalls = []) ∧
      ((optGTb (averageLoad st.servers) ((cfg.maxPlayersPerServer : ℚ) * (4/5))
          && decide ((runningServers st.servers).length < cfg.maxServers)) = true →
        okCreate = false →
        (scaleServers cfg freshId now okCreate okDelete st).deleteCalls = []) ∧
      (scaleServers cfg freshId now okCreate okDelete st).deleteCalls.length ≤ 1 := by
  intro cfg freshId now okCreate okDelete st
  rw [scaleServers_deleteCalls]
  refine ⟨?_, ?_, ?_, ?_⟩
  · rintro ⟨h1, h2⟩ habort
    have hno : ((optGTb (averageLoad st.servers) ((cfg.maxPlayersPerServer : ℚ) * (4/5))
        && decide ((runningServers st.servers).length < cfg.maxServers)) && !okCreate)
        = false := by
      cases hup : (optGTb (averageLoad st.servers) ((cfg.maxPlayersPerServer : ℚ) * (4/5))
          && decide ((runningServers st.servers).length < cfg.maxServers)) with
      | false => rfl
      | true =>
        cases okCreate with
        | false => exact absurd ⟨hup, rfl⟩ habort
        | true => rfl
    rw [hno, if_neg (by simp)]
    cases hidle : (runningServers st.servers).filter (fun s => s.players == 0) with
    | nil => rw [hidle] at h1; cases h1
    | cons s rest =>
      refine ⟨s, rest, rfl, ?_⟩
      rw [if_pos (Bool.and_eq_true_iff.mpr
        ⟨decide_eq_true (by rw [hidle] at h1; exact h1), decide_eq_true h2⟩)]
      rfl
  · intro hn
    split
    · rfl
    · rw [if_neg ?_]
      intro hb
      rcases Bool.and_eq_true_iff.mp hb with ⟨hb1, hb2⟩
      exact hn ⟨of_decide_eq_true hb1, of_decide_eq_true hb2⟩
  · intro hup hok
    rw [if_pos (by rw [hup, hok]; rfl)]
  · split
    · simp
    · split
      · cases ((runningServers st.servers).filter (fun s => s.players == 0)).head? <;> simp
      · simp

/-- C6 witness: with three idle running servers, default configuration
(`minServers = 2`) and a succeeding provisioner, exactly one delete is
issued, naming the first idle server in insertion order. -/
theorem scaleDown_rule_witness :
    ∃ s rest,
      (runningServers
        [{ id := 1, players := 0, status := Status.running, createdAt := 0 },
         { id := 2, players := 0, status := Status.running, createdAt := 0 },
         { id := 3, players := 0, status := Status.running, createdAt := 0 }]).filter
        (fun s => s.players == 0) = s :: rest ∧
      (scaleServers {} 9 0 true true
        ⟨[{ id := 1, players := 0, status := Status.running, createdAt := 0 },
          { id := 2, players := 0, status := Status.running, createdAt := 0 },
          { id := 3, players := 0, status := Status.running, createdAt := 0 }], []⟩).deleteCalls
        = [s.id] :=
  (scaleDown_rule {} 9 0 true true
    ⟨[{ id := 1, players := 0, status := Status.running, createdAt := 0 },
      { id := 2, players := 0, status := Status.running, createdAt := 0 },
      { id := 3, players := 0, status := Status.running, createdAt := 0 }], []⟩).1
    (by refine ⟨?_, ?_⟩ <;> decide)
    (by rintro ⟨-, h⟩; exact absurd h (by decide))

/-- C9 counterexample: the code computes `averageLoad` as
`totalPlayers / runningServers.length` with no `max(1, n)` guard; at the
empty registry the divisor is 0 and the JS value is `NaN` (modelled
`none`), not the 0 the claim derives from the `max(1, n)` formula. -/
theorem averageLoad_divisor_zero_counterexample :
    (runningServers ([] : List ServerInfo)).length = 0 ∧
    averageLoad ([] : List ServerInfo) = none ∧
    averageLoad ([] : List ServerInfo) ≠ some (spec_averageLoad ([] : List ServerInfo)) ∧
    spec_averageLoad ([] : List ServerInfo) = 0 := by
  have hnone : averageLoad ([] : List ServerInfo) = none := rfl
  refine ⟨rfl, hnone, ?_, ?_⟩
  · rw [hnone]; intro h; cases h
  · simp only [spec_averageLoad, runningServers, List.filter_nil]
    norm_num [totalPlayers]

/-- C9 (amended): the code divides by the running count itself, so with
zero running instances `averageLoad` is NaN rather than 0; every NaN
comparison is false and the idle filter is empty, so neither scaling rule
fires and the tick leaves the state unchanged; with at least one running
instance the computed value coincides with the spec formula
`totalPlayers / max(1, n)`. -/
theorem averageLoad_nan_behavior :
    ∀ (cfg : Config) (freshId now : Nat) (okCreate okDelete : Bool) (st : CState),
      ((runningServers st.servers).length = 0 →
        averageLoad st.servers = none ∧
        (scaleServers cfg freshId now okCreate okDelete st).createCalls = 0 ∧
        (scaleServers cfg freshId now okCreate okDelete st).deleteCalls = [] ∧
        (scaleServers cfg freshId now okCreate okDelete st).state = st) ∧
      (0 < (runningServers st.servers).length →
        averageLoad st.servers = some (spec_averageLoad st.servers)) := by
  intro cfg freshId now okCreate okDelete st
  constructor
  · intro h0
    have havg : averageLoad st.servers = none := by
      simp only [averageLoad]
      rw [if_pos h0]
    have hupf : (optGTb (averageLoad st.servers) ((cfg.maxPlayersPerServer : ℚ) * (4/5))
        && decide ((runningServers st.servers).length < cfg.maxServers)) = false := by
      rw [havg]
      rfl
    have hidle0 : ((runningServers st.servers).filter (fun s => s.players == 0)).length = 0 :=
      Nat.le_zero.mp (le_trans (List.length_filter_le _ _) (Nat.le_of_eq h0))
    have hdownf : (decide
        (1 < ((runningServers st.servers).filter (fun s => s.players == 0)).length)
        && decide (cfg.minServers < (runningServers st.servers).length)) = false := by
      rw [hidle0, h0]
      simp
    refine ⟨havg, ?_, ?_, ?_⟩
    · rw [scaleServers_createCalls, hupf]
      rfl
    · rw [scaleServers_deleteCalls, hupf, hdownf]
      simp
    · simp only [scaleServers, hupf, hdownf]
      simp
  · intro h1
    have hne : ¬ (runningServers st.servers).length = 0 := by omega
    simp only [averageLoad, spec_averageLoad, if_neg hne]
    rw [Nat.max_eq_right h1]

/-- C9 witness: at the registry with no running instances the tick issues
no provisioner call and does not change the state. -/
theorem averageLoad_nan_behavior_witness :
    averageLoad (⟨[], []⟩ : CState).servers = none ∧
    (scaleServers {} 9 0 true true ⟨[], []⟩).createCalls = 0 ∧
    (scaleServers {} 9 0 true true ⟨[], []⟩).deleteCalls = [] ∧
    (scaleServers {} 9 0 true true ⟨[], []⟩).state = ⟨[], []⟩ :=
  (averageLoad_nan_behavior {} 9 0 true true ⟨[], []⟩).1 rfl

/-! ### Helper lemmas: the session map -/

theorem find?_map_set (pid sid : Nat) :
    ∀ (ps : List (Nat × Nat)), ps.any (fun e => e.1 == pid) = true →
      (ps.map (fun e => if e.1 == pid then (pid, sid) else e)).find? (fun e => e.1 == pid) =
        some (pid, sid) := by
  intro ps
  induction ps with
  | nil => intro h; cases h
  | cons e ps ih =>
    intro h
    by_cases he : (e.1 == pid) = true
    · simp only [List.map_cons, if_pos he]
      exact List.find?_cons_of_pos _ (by simp)
    · have he' : (e.1 == pid) = false := Bool.eq_false_iff.mpr he
      have htail : (ps.any fun e => e.1 == pid) = true := by
        rw [List.any_cons, he', Bool.false_or] at h
        exact h
      simp only [List.map_cons]
      rw [if_neg he]
      have step : List.find? (fun x => x.1 == pid)
          (e :: List.map (fun x => if (x.1 == pid) = true then (pid, sid) else x) ps) =
          List.find? (fun x => x.1 == pid)
            (List.map (fun x => if (x.1 == pid) = true then (pid, sid) else x) ps) :=
        List.find?_cons_of_neg _ he
      rw [step]
      exact ih htail

theorem lookupPlayer_setPlayer (ps : List (Nat × Nat)) (pid sid : Nat) :
    lookupPlayer (setPlayer ps pid sid) pid = some sid := by
  by_cases h : ps.any (fun e => e.1 == pid) = true
  · simp only [lookupPlayer, setPlayer, if_pos h]
    rw [find?_map_set pid sid ps h]
    rfl
  · simp only [lookupPlayer, setPlayer, if_neg h]
    rw [List.find?_append]
    have hnone : ps.find? (fun e => e.1 == pid) = none :=
      List.find?_eq_none.mpr (fun x hx hpx => h (List.any_eq_true.mpr ⟨x, hx, hpx⟩))
    rw [hnone]
    simp

theorem lookupPlayer_delPlayer (ps : List (Nat × Nat)) (pid : Nat) :
    lookupPlayer (delPlayer ps pid) pid = none := by
  have hnone : (ps.filter (fun e => e.1 != pid)).find? (fun e => e.1 == pid) = none := by
    apply List.find?_eq_none.mpr
    intro x hx hpx
    have hne := (List.mem_filter.mp hx).2
    simp only [bne_iff_ne, ne_eq] at hne
    exact hne (by simpa using hpx)
  simp only [lookupPlayer, delPlayer, hnone]
  rfl

/-- C3 counterexample: player 7 already holds a session on server 1, yet a
second `request-server` for player 7 is answered with an assignment (not a
failure) and increments the instance counter from 1 to 2: there is no
`AlreadyBound` check in the handler. -/
theorem already_bound_counterexample :
    lookupPlayer ([(7, 1)] : List (Nat × Nat)) 7 = some 1 ∧
    (requestPlacement {} 99 0 true
      ⟨[{ id := 1, players := 1, status := Status.running, createdAt := 0 }], [(7, 1)]⟩
      7).result = PlacementResult.assigned 1 none none ∧
    (requestPlacement {} 99 0 true
      ⟨[{ id := 1, players := 1, status := Status.running, createdAt := 0 }], [(7, 1)]⟩
      7).state.servers =
      [{ id := 1, players := 2, status := Status.running, createdAt := 0 }] := by
  have hf : findAvailableServer {}
      [{ id := 1, players := 1, status := Status.running, createdAt := 0 }] =
      some { id := 1, players := 1, status := Status.running, createdAt := 0 } := by
    rw [findAvailableServer_eq_firstMin]
    decide
  refine ⟨rfl, ?_, ?_⟩
  · simp only [requestPlacement, hf]
  · simp only [requestPlacement, hf]
    decide

/-- C3 (amended): a second placement request for an already-bound player
does not fail and does not leave the state unchanged: it is processed like
any placement, incrementing the selected instance and overwriting the
session entry with the new server id (the previous binding is dropped
without decrementing the old instance). -/
theorem already_bound_rebinds :
    ∀ (cfg : Config) (freshId now : Nat) (ok : Bool) (st : CState) (pid sid : Nat)
      (srv : ServerInfo),
      lookupPlayer st.players pid = some sid →
      findAvailableServer cfg st.servers = some srv →
      (requestPlacement cfg freshId now ok st pid).result =
        PlacementResult.assigned srv.id srv.ip srv.port ∧
      (requestPlacement cfg freshId now ok st pid).state.servers =
        st.servers.map
          (fun t => if t.id == srv.id then { t with players := t.players + 1 } else t) ∧
      lookupPlayer (requestPlacement cfg freshId now ok st pid).state.players pid =
        some srv.id ∧
      (requestPlacement cfg freshId now ok st pid).createCalls = 0 := by
  intro cfg freshId now ok st pid sid srv hbound hf
  simp [requestPlacement, hf, lookupPlayer_setPlayer]

/-- C3 witness: the concrete already-bound rebind issues no create call
and rebinds player 7 to the selected server. -/
theorem already_bound_rebinds_witness :
    lookupPlayer (requestPlacement {} 99 0 true
      ⟨[{ id := 1, players := 1, status := Status.running, createdAt := 0 }], [(7, 1)]⟩
      7).state.players 7 = some 1 :=
  (already_bound_rebinds {} 99 0 true
    ⟨[{ id := 1, players := 1, status := Status.running, createdAt := 0 }], [(7, 1)]⟩ 7 1
    { id := 1, players := 1, status := Status.running, createdAt := 0 }
    rfl (by rw [findAvailableServer_eq_firstMin]; decide)).2.2.1

/-- C4 counterexample: with an empty registry (no qualifying instance) the
`request-server` handler does not surface a no-capacity signal: it issues
one provisioner create call itself and answers with the fresh server id. -/
theorem no_capacity_counterexample :
    (requestPlacement {} 5 0 true ⟨[], []⟩ 7).result = PlacementResult.createdNew 5 ∧
    (requestPlacement {} 5 0 true ⟨[], []⟩ 7).createCalls = 1 ∧
    (requestPlacement {} 5 0 true ⟨[], []⟩ 7).state.servers =
      [{ id := 5, players := 0, status := Status.starting, createdAt := 0 }] := by
  have hf : findAvailableServer {} (⟨[], []⟩ : CState).servers = none := by
    rw [findAvailableServer_eq_firstMin]
    rfl
  simp only [requestPlacement, hf]
  exact ⟨rfl, rfl, rfl⟩

/-- C4 (amended): when no running instance has `playerCount < capacity`
the handler itself provisions: it issues exactly one create call; on
success it inserts a fresh `starting` entry and replies with its id and a
retry message, on failure it replies with an error event; in both cases no
session is bound and no instance counter changes. -/
theorem no_capacity_provisions :
    ∀ (cfg : Config) (freshId now : Nat) (ok : Bool) (st : CState) (pid : Nat),
      findAvailableServer cfg st.servers = none →
      (requestPlacement cfg freshId now ok st pid).createCalls = 1 ∧
      (requestPlacement cfg freshId now ok st pid).state.players = st.players ∧
      (ok = true →
        (requestPlacement cfg freshId now ok st pid).result =
          PlacementResult.createdNew freshId ∧
        (requestPlacement cfg freshId now ok st pid).state.servers =
          setServer st.servers (newServerInfo freshId now)) ∧
      (ok = false →
        (requestPlacement cfg freshId now ok st pid).result = PlacementResult.failed ∧
        (requestPlacement cfg freshId now ok st pid).state = st) := by
  intro cfg freshId now ok st pid hf
  simp only [requestPlacement, hf]
  cases ok
  · refine ⟨rfl, rfl, ?_, ?_⟩
    · intro h; cases h
    · intro h; exact ⟨rfl, rfl⟩
  · refine ⟨rfl, rfl, ?_, ?_⟩
    · intro h; exact ⟨rfl, rfl⟩
    · intro h; cases h

/-- C4 witness: the empty registry has no qualifying instance and the
handler issues exactly one create call. -/
theorem no_capacity_provisions_witness :
    (requestPlacement {} 5 0 true ⟨[], []⟩ 7).createCalls = 1 :=
  (no_capacity_provisions {} 5 0 true ⟨[], []⟩ 7
    (by rw [findAvailableServer_eq_firstMin]; rfl)).1

/-- C8: releasing a placement twice equals releasing it once (the first
release removes the session, so the second finds none and is the
identity); releasing a player with no session is a no-op; and a release
never moves any entry below zero: each counter drops by at most one and an
entry already at zero stays at zero. -/
theorem releasePlacement_idempotent :
    ∀ (st : CState) (pid : Nat),
      releasePlacement (releasePlacement st pid) pid = releasePlacement st pid ∧
      (lookupPlayer st.players pid = none → releasePlacement st pid = st) ∧
      List.Forall₂
        (fun t t' => t'.id = t.id ∧ t'.players ≤ t.players ∧ (t.players = 0 → t'.players = 0))
        st.servers (releasePlacement st pid).servers := by
  intro st pid
  have hnoop : ∀ (s : CState), lookupPlayer s.players pid = none → releasePlacement s pid = s := by
    intro s h
    simp only [releasePlacement, h]
  refine ⟨?_, hnoop st, ?_⟩
  · cases hl : lookupPlayer st.players pid with
    | none =>
      rw [hnoop st hl]
      exact hnoop st hl
    | some sid =>
      have hpl : (releasePlacement st pid).players = delPlayer st.players pid := by
        simp only [releasePlacement, hl]
      apply hnoop
      rw [hpl]
      exact lookupPlayer_delPlayer st.players pid
  · cases hl : lookupPlayer st.players pid with
    | none =>
      rw [hnoop st hl]
      exact List.forall₂_same.mpr (fun x _ => ⟨rfl, Nat.le_refl _, fun h => h⟩)
    | some sid =>
      cases hg : getServer st.servers sid with
      | none =>
        have hs : (releasePlacement st pid).servers = st.servers := by
          simp only [releasePlacement, hl, hg]
        rw [hs]
        exact List.forall₂_same.mpr (fun x _ => ⟨rfl, Nat.le_refl _, fun h => h⟩)
      | some srv =>
        have hs : (releasePlacement st pid).servers =
            if 0 < srv.players then
              st.servers.map
                (fun t => if t.id == sid then { t with players := t.players - 1 } else t)
            else st.servers := by
          simp only [releasePlacement, hl, hg]
        rw [hs]
        by_cases hp : 0 < srv.players
        · rw [if_pos hp, List.forall₂_map_right_iff]
          apply List.forall₂_same.mpr
          intro t _
          by_cases ht : (t.id == sid) = true
          · rw [if_pos ht]
            exact ⟨rfl, Nat.sub_le _ _, fun h0 => by simp [h0]⟩
          · rw [if_neg ht]
            exact ⟨rfl, Nat.le_refl _, fun h => h⟩
        · rw [if_neg hp]
          exact List.forall₂_same.mpr (fun x _ => ⟨rfl, Nat.le_refl _, fun h => h⟩)

/-- C8 witness: releasing a player with no session leaves the state
exactly as it was. -/
theorem releasePlacement_idempotent_witness :
    releasePlacement
      ⟨[{ id := 1, players := 4, status := Status.running, createdAt := 0 }], []⟩ 5 =
      ⟨[{ id := 1, players := 4, status := Status.running, createdAt := 0 }], []⟩ :=
  (releasePlacement_idempotent
    ⟨[{ id := 1, players := 4, status := Status.running, createdAt := 0 }], []⟩ 5).2.1 rfl

/-! ### Helper lemmas: the registry invariant -/

theorem mem_setServer (l : List ServerInfo) (s t : ServerInfo) (h : t ∈ setServer l s) :
    t ∈ l ∨ t = s := by
  unfold setServer at h
  split at h
  · rcases List.mem_map.mp h with ⟨u, hu, he⟩
    by_cases hc : (u.id == s.id) = true
    · rw [if_pos hc] at he
      exact Or.inr he.symm
    · rw [if_neg hc] at he
      exact Or.inl (he ▸ hu)
  · rcases List.mem_append.mp h with h | h
    · exact Or.inl h
    · exact Or.inr (List.mem_singleton.mp h)

theorem ids_map_preserved (l : List ServerInfo) (f : ServerInfo → ServerInfo)
    (hf : ∀ t ∈ l, (f t).id = t.id) :
    (l.map f).map (fun s => s.id) = l.map (fun s => s.id) := by
  rw [List.map_map]
  exact List.map_congr_left hf

theorem nodup_ids_setServer (l : List ServerInfo) (s : ServerInfo)
    (h : (l.map (fun s => s.id)).Nodup) : ((setServer l s).map (fun s => s.id)).Nodup := by
  unfold setServer
  split
  · rw [ids_map_preserved]
    · exact h
    · intro t ht
      by_cases hc : (t.id == s.id) = true
      · rw [if_pos hc]
        exact (beq_iff_eq.mp hc).symm
      · rw [if_neg hc]
  · rename_i hany
    rw [List.map_append]
    refine List.Nodup.append h (by simp) ?_
    intro x hx hx2
    rcases List.mem_map.mp hx with ⟨u, hu, hux⟩
    simp only [List.map_cons, List.map_nil, List.mem_singleton] at hx2
    exact hany (List.any_eq_true.mpr ⟨u, hu, beq_iff_eq.mpr (by rw [hux, hx2])⟩)

theorem RegInvariant_setServer (cfg : Config) (l : List ServerInfo) (s : ServerInfo)
    (h : RegInvariant cfg l) (hs : s.players ≤ cfg.maxPlayersPerServer) :
    RegInvariant cfg (setServer l s) := by
  refine ⟨nodup_ids_setServer l s h.1, ?_⟩
  intro t ht
  rcases mem_setServer l s t ht with h' | h'
  · exact h.2 t h'
  · rw [h']
    exact hs

theorem RegInvariant_delServer (cfg : Config) (l : List ServerInfo) (sid : Nat)
    (h : RegInvariant cfg l) : RegInvariant cfg (delServer l sid) := by
  refine ⟨List.Nodup.sublist (List.Sublist.map _ (List.filter_sublist l)) h.1, ?_⟩
  intro t ht
  exact h.2 t (List.mem_of_mem_filter ht)

theorem RegInvariant_createGameServer (cfg : Config) (freshId now : Nat) (ok : Bool)
    (l : List ServerInfo) (h : RegInvariant cfg l) :
    RegInvariant cfg (createGameServer freshId now ok l) := by
  unfold createGameServer
  split
  · exact RegInvariant_setServer cfg l _ h (Nat.zero_le _)
  · exact h

theorem RegInvariant_deleteGameServer (cfg : Config) (ok : Bool) (l : List ServerInfo)
    (sid : Nat) (h : RegInvariant cfg l) : RegInvariant cfg (deleteGameServer ok l sid) := by
  unfold deleteGameServer
  split
  · exact RegInvariant_delServer cfg l sid h
  · exact h

theorem RegInvariant_map (cfg : Config) (l : List ServerInfo) (f : ServerInfo → ServerInfo)
    (hid : ∀ t ∈ l, (f t).id = t.id)
    (hpl : ∀ t ∈ l, (f t).players ≤ cfg.maxPlayersPerServer)
    (h : RegInvariant cfg l) : RegInvariant cfg (l.map f) := by
  refine ⟨by rw [ids_map_preserved l f hid]; exact h.1, ?_⟩
  intro t ht
  rcases List.mem_map.mp ht with ⟨u, hu, he⟩
  rw [← he]
  exact hpl u hu

theorem RegInvariant_discover (cfg : Config) (res : Except Unit (List PodInfo))
    (l : List ServerInfo) (h : RegInvariant cfg l) :
    RegInvariant cfg (discoverExistingServers res l) := by
  cases res with
  | error e => exact h
  | ok pods =>
    show RegInvariant cfg (pods.foldl
      (fun acc p => if p.phase == "Running" then setServer acc (discoveredInfo p) else acc) l)
    induction pods generalizing l with
    | nil => exact h
    | cons p pods ih =>
      rw [List.foldl_cons]
      apply ih
      split
      · exact RegInvariant_setServer cfg l _ h (Nat.zero_le _)
      · exact h

theorem scaleServers_servers_cases (cfg : Config) (freshId now : Nat)
    (okCreate okDelete : Bool) (st : CState) :
    (scaleServers cfg freshId now okCreate okDelete st).state.servers =
      createGameServer freshId now okCreate st.servers ∨
    (scaleServers cfg freshId now okCreate okDelete st).state.servers = st.servers ∨
    (∃ sid, (scaleServers cfg freshId now okCreate okDelete st).state.servers =
      deleteGameServer okDelete (createGameServer freshId now okCreate st.servers) sid) ∨
    (∃ sid, (scaleServers cfg freshId now okCreate okDelete st).state.servers =
      deleteGameServer okDelete st.servers sid) := by
  simp only [scaleServers]
  split
  · exact Or.inr (Or.inl rfl)
  · by_cases hup : (optGTb (averageLoad st.servers) ((cfg.maxPlayersPerServer : ℚ) * (4/5))
        && decide ((runningServers st.servers).length < cfg.maxServers)) = true
    · simp only [if_pos hup]
      split
      · cases hh : ((runningServers st.servers).filter (fun s => s.players == 0)).head? with
        | some s => exact Or.inr (Or.inr (Or.inl ⟨s.id, rfl⟩))
        | none => exact Or.inl rfl
      · exact Or.inl rfl
    · simp only [if_neg hup]
      split
      · cases hh : ((runningServers st.servers).filter (fun s => s.players == 0)).head? with
        | some s => exact Or.inr (Or.inr (Or.inr ⟨s.id, rfl⟩))
        | none => exact Or.inr (Or.inl rfl)
      · exact Or.inr (Or.inl rfl)

theorem step_preserves_RegInvariant (cfg : Config) (st : CState) (op : Op)
    (h : RegInvariant cfg st.servers) : RegInvariant cfg (step cfg st op).servers := by
  cases op with
  | place pid freshId now ok =>
    show RegInvariant cfg (requestPlacement cfg freshId now ok st pid).state.servers
    cases hf : findAvailableServer cfg st.servers with
    | some srv =>
      obtain ⟨hmem, -, hlt⟩ := findAvailableServer_mem cfg st.servers srv hf
      have hs : (requestPlacement cfg freshId now ok st pid).state.servers =
          st.servers.map
            (fun t => if t.id == srv.id then { t with players := t.players + 1 } else t) := by
        simp only [requestPlacement, hf]
      rw [hs]
      apply RegInvariant_map cfg st.servers _ ?_ ?_ h
      · intro t ht
        by_cases hc : (t.id == srv.id) = true
        · rw [if_pos hc]
        · rw [if_neg hc]
      · intro t ht
        by_cases hc : (t.id == srv.id) = true
        · rw [if_pos hc]
          have : t = srv :=
            List.inj_on_of_nodup_map h.1 ht hmem (beq_iff_eq.mp hc)
          rw [this]
          exact hlt
        · rw [if_neg hc]
          exact h.2 t ht
    | none =>
      cases ok with
      | true =>
        have hs : (requestPlacement cfg freshId now true st pid).state.servers =
            setServer st.servers (newServerInfo freshId now) := by
          simp [requestPlacement, hf]
        rw [hs]
        exact RegInvariant_setServer cfg st.servers _ h (Nat.zero_le _)
      | false =>
        have hs : (requestPlacement cfg freshId now false st pid).state.servers =
            st.servers := by
          simp [requestPlacement, hf]
        rw [hs]
        exact h
  | release pid =>
    show RegInvariant cfg (releasePlacement st pid).servers
    cases hl : lookupPlayer st.players pid with
    | none =>
      have hs : releasePlacement st pid = st := by simp only [releasePlacement, hl]
      rw [hs]
      exact h
    | some sid =>
      cases hg : getServer st.servers sid with
      | none =>
        have hs : (releasePlacement st pid).servers = st.servers := by
          simp only [releasePlacement, hl, hg]
        rw [hs]
        exact h
      | some srv =>
        have hs : (releasePlacement st pid).servers =
            if 0 < srv.players then
              st.servers.map
                (fun t => if t.id == sid then { t with players := t.players - 1 } else t)
            else st.servers := by
          simp only [releasePlacement, hl, hg]
        rw [hs]
        split
        · apply RegInvariant_map cfg st.servers _ ?_ ?_ h
          · intro t ht
            by_cases hc : (t.id == sid) = true
            · rw [if_pos hc]
            · rw [if_neg hc]
          · intro t ht
            by_cases hc : (t.id == sid) = true
            · rw [if_pos hc]
              exact le_trans (Nat.sub_le _ _) (h.2 t ht)
            · rw [if_neg hc]
              exact h.2 t ht
        · exact h
  | create freshId now ok =>
    exact RegInvariant_createGameServer cfg freshId now ok st.servers h
  | remove sid ok =>
    exact RegInvariant_deleteGameServer cfg ok st.servers sid h
  | tick freshId now okCreate okDelete =>
    show RegInvariant cfg (scaleServers cfg freshId now okCreate okDelete st).state.servers
    rcases scaleServers_servers_cases cfg freshId now okCreate okDelete st with
      hc | hc | ⟨sid, hc⟩ | ⟨sid, hc⟩
    · rw [hc]
      exact RegInvariant_createGameServer cfg freshId now okCreate st.servers h
    · rw [hc]
      exact h
    · rw [hc]
      exact RegInvariant_deleteGameServer cfg okDelete _ sid
        (RegInvariant_createGameServer cfg freshId now okCreate st.servers h)
    · rw [hc]
      exact RegInvariant_deleteGameServer cfg okDelete st.servers sid h
  | discover res =>
    exact RegInvariant_discover cfg res st.servers h

theorem foldl_step_RegInvariant (cfg : Config) (ops : List Op) :
    ∀ (st : CState), RegInvariant cfg st.servers →
      RegInvariant cfg (ops.foldl (step cfg) st).servers := by
  induction ops with
  | nil => intro st h; exact h
  | cons op ops ih =>
    intro st h
    rw [List.foldl_cons]
    exact ih (step cfg st op) (step_preserves_RegInvariant cfg st op h)

/-- C5: along every sequence of controller operations from the empty
initial state (placements, disconnects, manual creates and deletes,
scaling ticks, discovery passes), every registry entry, in particular
every running one, satisfies `playerCount <= capacity`: placement only
increments an instance selected with `players < capacity`, release only
decrements, and every insertion starts at zero players. -/
theorem running_playerCount_le_capacity :
    ∀ (cfg : Config) (ops : List Op) (s : ServerInfo),
      s ∈ (run cfg ops).servers → s.players ≤ cfg.maxPlayersPerServer := by
  intro cfg ops s hs
  have h0 : RegInvariant cfg (CState.empty).servers := ⟨List.nodup_nil, by intro t ht; cases ht⟩
  exact (foldl_step_RegInvariant cfg ops CState.empty h0).2 s hs

/-- C5 witness: after one manual create from the empty state, the single
`starting` entry holds 0 <= 100 players. -/
theorem running_playerCount_le_capacity_witness :
    (newServerInfo 1 0).players ≤ ({} : Config).maxPlayersPerServer :=
  running_playerCount_le_capacity {} [Op.create 1 0 true] (newServerInfo 1 0) (by decide)

/-! ### Helper lemmas: status immutability -/

theorem mem_setServer_eq_key (l : List ServerInfo) (s : ServerInfo) :
    ∀ t ∈ setServer l s, t.id = s.id → t = s := by
  intro t ht hid
  unfold setServer at ht
  split at ht
  · rcases List.mem_map.mp ht with ⟨u, hu, he⟩
    by_cases hc : (u.id == s.id) = true
    · rw [if_pos hc] at he
      exact he.symm
    · rw [if_neg hc] at he
      exact absurd (beq_iff_eq.mpr (by rw [he]; exact hid)) hc
  · rename_i hany
    rcases List.mem_append.mp ht with h' | h'
    · refine absurd ?_ hany
      exact List.any_eq_true.mpr ⟨t, h', beq_iff_eq.mpr hid⟩
    · exact List.mem_singleton.mp h'

theorem allStarting_map (l : List ServerInfo) (i : Nat) (f : ServerInfo → ServerInfo)
    (hf : ∀ t ∈ l, (f t).id = t.id ∧ (f t).status = t.status)
    (h : allStarting l i) : allStarting (l.map f) i := by
  intro t ht hid
  rcases List.mem_map.mp ht with ⟨u, hu, he⟩
  obtain ⟨hid', hst⟩ := hf u hu
  rw [← he] at hid ⊢
  rw [hst]
  exact h u hu (hid'.symm.trans hid)

theorem allStarting_setServer_starting (l : List ServerInfo) (i : Nat) (s : ServerInfo)
    (hss : s.status = Status.starting) (h : allStarting l i) :
    allStarting (setServer l s) i := by
  intro t ht hid
  rcases mem_setServer l s t ht with h' | h'
  · exact h t h' hid
  · rw [h']
    exact hss

theorem allStarting_filter (l : List ServerInfo) (i : Nat) (p : ServerInfo → Bool)
    (h : allStarting l i) : allStarting (l.filter p) i :=
  fun t ht hid => h t (List.mem_of_mem_filter ht) hid

theorem allStarting_createGameServer (freshId now : Nat) (ok : Bool) (l : List ServerInfo)
    (i : Nat) (h : allStarting l i) : allStarting (createGameServer freshId now ok l) i := by
  unfold createGameServer
  split
  · exact allStarting_setServer_starting l i _ rfl h
  · exact h

theorem allStarting_deleteGameServer (ok : Bool) (l : List ServerInfo) (sid i : Nat)
    (h : allStarting l i) : allStarting (deleteGameServer ok l sid) i := by
  unfold deleteGameServer
  split
  · exact allStarting_filter l i _ h
  · exact h

theorem step_preserves_allStarting (cfg : Config) (st : CState) (op : Op) (i : Nat)
    (hop : op.isDiscover = false) (h : allStarting st.servers i) :
    allStarting (step cfg st op).servers i := by
  cases op with
  | place pid freshId now ok =>
    show allStarting (requestPlacement cfg freshId now ok st pid).state.servers i
    cases hf : findAvailableServer cfg st.servers with
    | some srv =>
      have hs : (requestPlacement cfg freshId now ok st pid).state.servers =
          st.servers.map
            (fun t => if t.id == srv.id then { t with players := t.players + 1 } else t) := by
        simp only [requestPlacement, hf]
      rw [hs]
      apply allStarting_map st.servers i _ ?_ h
      intro t ht
      by_cases hc : (t.id == srv.id) = true
      · rw [if_pos hc]
        exact ⟨rfl, rfl⟩
      · rw [if_neg hc]
        exact ⟨rfl, rfl⟩
    | none =>
      cases ok with
      | true =>
        have hs : (requestPlacement cfg freshId now true st pid).state.servers =
            setServer st.servers (newServerInfo freshId now) := by
          simp [requestPlacement, hf]
        rw [hs]
        exact allStarting_setServer_starting st.servers i _ rfl h
      | false =>
        have hs : (requestPlacement cfg freshId now false st pid).state.servers =
            st.servers := by
          simp [requestPlacement, hf]
        rw [hs]
        exact h
  | release pid =>
    show allStarting (releasePlacement st pid).servers i
    cases hl : lookupPlayer st.players pid with
    | none =>
      have hs : releasePlacement st pid = st := by simp only [releasePlacement, hl]
      rw [hs]
      exact h
    | some sid =>
      cases hg : getServer st.servers sid with
      | none =>
        have hs : (releasePlacement st pid).servers = st.servers := by
          simp only [releasePlacement, hl, hg]
        rw [hs]
        exact h
      | some srv =>
        have hs : (releasePlacement st pid).servers =
            if 0 < srv.players then
              st.servers.map
                (fun t => if t.id == sid then { t with players := t.players - 1 } else t)
            else st.servers := by
          simp only [releasePlacement, hl, hg]
        rw [hs]
        split
        · apply allStarting_map st.servers i _ ?_ h
          intro t ht
          by_cases hc : (t.id == sid) = true
          · rw [if_pos hc]
            exact ⟨rfl, rfl⟩
          · rw [if_neg hc]
            exact ⟨rfl, rfl⟩
        · exact h
  | create freshId now ok =>
    exact allStarting_createGameServer freshId now ok st.servers i h
  | remove sid ok =>
    exact allStarting_deleteGameServer ok st.servers sid i h
  | tick freshId now okCreate okDelete =>
    show allStarting (scaleServers cfg freshId now okCreate okDelete st).state.servers i
    rcases scaleServers_servers_cases cfg freshId now okCreate okDelete st with
      hc | hc | ⟨sid, hc⟩ | ⟨sid, hc⟩
    · rw [hc]
      exact allStarting_createGameServer freshId now okCreate st.servers i h
    · rw [hc]
      exact h
    · rw [hc]
      exact allStarting_deleteGameServer okDelete _ sid i
        (allStarting_createGameServer freshId now okCreate st.servers i h)
    · rw [hc]
      exact allStarting_deleteGameServer okDelete st.servers sid i h
  | discover res =>
    simp [Op.isDiscover] at hop

/-- C10: no controller operation other than startup discovery ever turns a
`starting` registry entry into a `running` one: along any discovery-free
operation sequence every entry under a given id stays `starting` (or is
deleted); entries inserted by a successful `createGameServer` are
`starting`; placement never selects a `starting` instance; and a
`starting` instance is never counted among the running instances used by
the scaling and minimum-pool logic. -/
theorem starting_never_becomes_running :
    (∀ (cfg : Config) (st : CState) (ops : List Op) (i : Nat),
      (∀ op ∈ ops, op.isDiscover = false) →
      allStarting st.servers i →
      allStarting (ops.foldl (step cfg) st).servers i) ∧
    (∀ (freshId now : Nat) (servers : List ServerInfo),
      allStarting (createGameServer freshId now true servers) freshId) ∧
    (∀ (cfg : Config) (servers : List ServerInfo) (srv : ServerInfo),
      findAvailableServer cfg servers = some srv → srv.status = Status.running) ∧
    (∀ (servers : List ServerInfo) (s : ServerInfo),
      s.status = Status.starting → s ∉ runningServers servers) := by
  refine ⟨?_, ?_, ?_, ?_⟩
  · intro cfg st ops i
    induction ops generalizing st with
    | nil => intro hops h; exact h
    | cons op ops ih =>
      intro hops h
      rw [List.foldl_cons]
      exact ih (step cfg st op)
        (fun o ho => hops o (List.mem_cons_of_mem op ho))
        (step_preserves_allStarting cfg st op i (hops op (List.mem_cons_self op ops)) h)
  · intro freshId now servers t ht hid
    have : t = newServerInfo freshId now :=
      mem_setServer_eq_key servers (newServerInfo freshId now) t ht hid
    rw [this]
    rfl
  · intro cfg servers srv h
    exact (findAvailableServer_mem cfg servers srv h).2.1
  · intro servers s hss hmem
    have := (List.mem_filter.mp hmem).2
    rw [hss] at this
    cases of_decide_eq_true this

/-- C10 witness: a `release` operation (not discovery) leaves the single
`starting` entry `starting`. -/
theorem starting_never_becomes_running_witness :
    allStarting (([Op.release 0].foldl (step {})
      ⟨[{ id := 1, players := 0, status := Status.starting, createdAt := 0 }],
        [(3, 1)]⟩).servers) 1 :=
  starting_never_becomes_running.1 {}
    ⟨[{ id := 1, players := 0, status := Status.starting, createdAt := 0 }], [(3, 1)]⟩
    [Op.release 0] 1
    (by
      intro op hop
      rw [List.mem_singleton] at hop
      rw [hop]
      rfl)
    (by
      intro t ht hid
      rw [List.mem_singleton] at ht
      rw [ht])

/-! ### Helper lemmas: startup -/

theorem discover_status_running (res : Except Unit (List PodInfo)) :
    ∀ s ∈ discoverExistingServers res [], s.status = Status.running := by
  have aux : ∀ (pods : List PodInfo) (l : List ServerInfo),
      (∀ s ∈ l, s.status = Status.running) →
      ∀ s ∈ pods.foldl
        (fun acc p => if p.phase == "Running" then setServer acc (discoveredInfo p) else acc) l,
        s.status = Status.running := by
    intro pods
    induction pods with
    | nil => intro l h; exact h
    | cons p pods ih =>
      intro l h
      rw [List.foldl_cons]
      apply ih
      split
      · intro s hs
        rcases mem_setServer _ _ _ hs with h' | h'
        · exact h s h'
        · rw [h']
          rfl
      · exact h
  cases res with
  | error e => intro s hs; cases hs
  | ok pods => exact aux pods [] (by intro s hs; cases hs)

/-- C7: after discovery the controller issues exactly
`minServers - |discovered running instances|` create calls (truncated
subtraction realises the `max(0, ...)`), before reporting ready; a
discovery error leaves the registry empty, so with a failed or empty
discovery and the default `minServers = 2` exactly 2 creates are issued. -/
theorem startup_minimum_creates :
    (∀ (cfg : Config) (fresh : Nat → Nat) (now : Nat) (res : Except Unit (List PodInfo)),
      (startup cfg fresh now res).2 =
        cfg.minServers - (discoverExistingServers res []).length) ∧
    (∀ (cfg : Config) (fresh : Nat → Nat) (now : Nat),
      (startup cfg fresh now (Except.error ())).2 = cfg.minServers) ∧
    (∀ (fresh : Nat → Nat) (now : Nat),
      (startup {} fresh now (Except.error ())).2 = 2 ∧
      (startup {} fresh now (Except.ok [])).2 = 2) := by
  have main : ∀ (cfg : Config) (fresh : Nat → Nat) (now : Nat)
      (res : Except Unit (List PodInfo)),
      (startup cfg fresh now res).2 =
        cfg.minServers - (discoverExistingServers res []).length := by
    intro cfg fresh now res
    have hr : runningServers (discoverExistingServers res []) = discoverExistingServers res [] :=
      List.filter_eq_self.mpr
        (fun s hs => decide_eq_true (discover_status_running res s hs))
    simp only [startup, ensureMinimumServers, hr]
    split
    · rfl
    · rename_i hge
      show (0 : Nat) = cfg.minServers - (discoverExistingServers res []).length
      omega
  refine ⟨main, ?_, ?_⟩
  · intro cfg fresh now
    rw [main cfg fresh now (Except.error ())]
    rfl
  · intro fresh now
    exact ⟨by rw [main]; rfl, by rw [main]; rfl⟩

end GameServer
